import Mathlib

/-!
# Postcard creator (`src/App.jsx`)

A shallow embedding of the `App` component: its React state, the 2D canvas
context it drives, and its event handlers (`resizeCanvas`, `startDrawing`,
`draw`, `stopDrawing`, `clearCanvas`, `downloadImage`, the slider / style /
colour setters).

Modelling conventions.
* JavaScript numbers are exact rationals (`ℚ`); the rounding of IEEE doubles is
  outside the model.
* `Math.random()` is an input of `draw`: the two samples it may consume.
* The canvas bitmap is the list of paint operations applied to it since it was
  last reset to transparent black; the value of a pixel is the fold of these
  operations (source-over compositing) and is computed by `pixel`.  The
  coverage of a pixel by a stroked or filled path is host-defined and is a
  parameter (`Raster`).
-/

namespace Postcard

/-- A point in canvas coordinates: the (finite) `offsetX` / `offsetY` of the
`nativeEvent` handed to `startDrawing` and `draw`. -/
structure Point where
  x : ℚ
  y : ℚ
deriving DecidableEq

/-- A colour `#rrggbb`, represented by its three channel values. -/
structure Color where
  r : Nat
  g : Nat
  b : Nat
deriving DecidableEq

/-- The five values ever passed to `setBrushStyle`. -/
inductive BrushStyle
  | standard
  | impressionist
  | pointillist
  | expressionist
  | eraser
deriving DecidableEq

/-- The value held by the `brushSize` state: the number literal `5` of
`useState(5)`, or the string `e.target.value` of the range input, here the
decimal string of `n`. -/
inductive JsSize
  | num (n : Nat)
  | str (n : Nat)
deriving DecidableEq

/-- ToNumber, as applied by `*`, `/` and by the `lineWidth` setter. -/
def JsSize.toNumber : JsSize → ℚ
  | .num n => (n : ℚ)
  | .str n => (n : ℚ)

/-- One element of the context's current path.  Angles of `arc` are in units
of π, so `Math.PI * 2` is `2`. -/
inductive PathCmd
  | move (p : Point)
  | line (p : Point)
  | arc (cx cy radius startAngle endAngle : ℚ)
  | close
deriving DecidableEq

/-- The current default path of a 2D context. -/
abbrev Path := List PathCmd

inductive LineCap
  | butt
  | round
  | square
deriving DecidableEq

inductive LineJoin
  | miter
  | round
  | bevel
deriving DecidableEq

/-- The part of `CanvasRenderingContext2D` state that the component touches. -/
structure Ctx where
  lineWidth : ℚ
  strokeStyle : Color
  fillStyle : Color
  globalAlpha : ℚ
  lineCap : LineCap
  lineJoin : LineJoin
  path : Path
deriving DecidableEq

/-- A paint operation applied to the bitmap, with the context settings it was
issued under. -/
inductive PaintOp
  | fillRect (x y w h : ℚ) (style : Color) (alpha : ℚ)
  | stroke (path : Path) (lineWidth : ℚ) (style : Color) (alpha : ℚ)
      (cap : LineCap) (join : LineJoin)
  | fill (path : Path) (style : Color) (alpha : ℚ)
deriving DecidableEq

/-- The canvas element: its integer dimensions and its bitmap, the latter as the
paint operations applied since the last reset (oldest first). -/
structure Canvas where
  width : Nat
  height : Nat
  ops : List PaintOp
deriving DecidableEq

/-- The React state of `App` together with the two refs. -/
structure App where
  isDrawing : Bool
  brushColor : Color
  brushSize : JsSize
  brushStyle : BrushStyle
  canvasBackground : Color
  showInstructions : Bool
  canvas : Canvas
  ctx : Ctx
deriving DecidableEq

/-! ## Pixels -/

/-- A pixel, premultiplied RGBA with exact channels (colour channels on the
0..255 scale, alpha on the 0..1 scale). -/
structure Pixel where
  r : ℚ
  g : ℚ
  b : ℚ
  a : ℚ
deriving DecidableEq

/-- Transparent black, the value of every pixel of a reset bitmap. -/
def Pixel.transparent : Pixel := ⟨0, 0, 0, 0⟩

/-- The pixel showing exactly colour `c` at full opacity. -/
def Pixel.solid (c : Color) : Pixel := ⟨c.r, c.g, c.b, 1⟩

/-- Host rasteriser: the fraction (0..1) of pixel `(x, y)` covered by a stroked
or a filled path. -/
structure Raster where
  strokeCov : Path → ℚ → LineCap → LineJoin → Nat → Nat → ℚ
  fillCov : Path → Nat → Nat → ℚ

def clamp01 (q : ℚ) : ℚ := max 0 (min 1 q)

/-- Source-over compositing of colour `c` at effective alpha `a` onto `d`. -/
def over (c : Color) (a : ℚ) (d : Pixel) : Pixel :=
  ⟨a * c.r + (1 - a) * d.r, a * c.g + (1 - a) * d.g, a * c.b + (1 - a) * d.b,
    a + (1 - a) * d.a⟩

/-- Fraction of the unit pixel `(x, y)` covered by the rectangle
`(rx, ry, rw, rh)`. -/
def rectCov (rx ry rw rh : ℚ) (x y : Nat) : ℚ :=
  max 0 (min ((x : ℚ) + 1) (rx + rw) - max (x : ℚ) rx) *
    max 0 (min ((y : ℚ) + 1) (ry + rh) - max (y : ℚ) ry)

/-- Coverage of pixel `(x, y)` by a paint operation. -/
def PaintOp.cov (rast : Raster) : PaintOp → Nat → Nat → ℚ
  | .fillRect rx ry rw rh _ _, x, y => rectCov rx ry rw rh x y
  | .stroke path lw _ _ cap join, x, y => rast.strokeCov path lw cap join x y
  | .fill path _ _, x, y => rast.fillCov path x y

def PaintOp.style : PaintOp → Color
  | .fillRect _ _ _ _ c _ => c
  | .stroke _ _ c _ _ _ => c
  | .fill _ c _ => c

def PaintOp.alpha : PaintOp → ℚ
  | .fillRect _ _ _ _ _ a => a
  | .stroke _ _ _ a _ _ => a
  | .fill _ _ a => a

/-- The line width a paint operation was stroked with (none for fills). -/
def PaintOp.lineWidth? : PaintOp → Option ℚ
  | .stroke _ lw _ _ _ _ => some lw
  | _ => none

/-- Effect of one paint operation on the pixel `(x, y)`. -/
def PaintOp.paint (rast : Raster) (op : PaintOp) (x y : Nat) (d : Pixel) : Pixel :=
  over op.style (op.alpha * clamp01 (op.cov rast x y)) d

/-- Value of the pixel `(x, y)` of the bitmap. -/
def pixel (rast : Raster) (cv : Canvas) (x y : Nat) : Pixel :=
  cv.ops.foldl (fun d op => op.paint rast x y d) Pixel.transparent

/-! ## The 2D context API -/

/-- Default state of a 2D context (also the state after a bitmap reset). -/
def Ctx.initial : Ctx :=
  { lineWidth := 1, strokeStyle := ⟨0, 0, 0⟩, fillStyle := ⟨0, 0, 0⟩, globalAlpha := 1,
    lineCap := .butt, lineJoin := .miter, path := [] }

/-- The `lineWidth` setter ignores zero and negative values. -/
def Ctx.setLineWidth (c : Ctx) (w : ℚ) : Ctx :=
  if 0 < w then { c with lineWidth := w } else c

def Ctx.setStrokeStyle (c : Ctx) (col : Color) : Ctx := { c with strokeStyle := col }

def Ctx.setFillStyle (c : Ctx) (col : Color) : Ctx := { c with fillStyle := col }

/-- The `globalAlpha` setter ignores values outside `[0, 1]`. -/
def Ctx.setGlobalAlpha (c : Ctx) (a : ℚ) : Ctx :=
  if 0 ≤ a ∧ a ≤ 1 then { c with globalAlpha := a } else c

def Ctx.beginPath (c : Ctx) : Ctx := { c with path := [] }

def Ctx.moveTo (c : Ctx) (x y : ℚ) : Ctx := { c with path := c.path ++ [.move ⟨x, y⟩] }

/-- On a path without subpaths `lineTo` only starts a subpath at the point. -/
def Ctx.lineTo (c : Ctx) (x y : ℚ) : Ctx :=
  if c.path = [] then { c with path := [.move ⟨x, y⟩] }
  else { c with path := c.path ++ [.line ⟨x, y⟩] }

/-- On a path without subpaths `closePath` does nothing. -/
def Ctx.closePath (c : Ctx) : Ctx :=
  if c.path = [] then c else { c with path := c.path ++ [.close] }

/-- The arc is recorded after the elements already in the path; on a path
without subpaths it stands alone. -/
def Ctx.arc (c : Ctx) (x y radius startAngle endAngle : ℚ) : Ctx :=
  { c with path := c.path ++ [.arc x y radius startAngle endAngle] }

/-- Stroke the current path onto the bitmap with the current settings. -/
def Ctx.stroke (c : Ctx) (cv : Canvas) : Canvas :=
  { cv with ops := cv.ops ++
      [.stroke c.path c.lineWidth c.strokeStyle c.globalAlpha c.lineCap c.lineJoin] }

/-- Fill the current path onto the bitmap with the current settings. -/
def Ctx.fill (c : Ctx) (cv : Canvas) : Canvas :=
  { cv with ops := cv.ops ++ [.fill c.path c.fillStyle c.globalAlpha] }

def Ctx.fillRect (c : Ctx) (cv : Canvas) (x y w h : ℚ) : Canvas :=
  { cv with ops := cv.ops ++ [.fillRect x y w h c.fillStyle c.globalAlpha] }

/-- Conversion of a number to the `unsigned long` of `canvas.width` /
`canvas.height`, for the values `0 ≤ q ≤ 800` that arise here: the fractional
part is dropped. -/
def toUnsignedLong (q : ℚ) : Nat := Int.toNat ⌊q⌋

/-- Assigning `canvas.width`: the bitmap is reset to transparent black and the
context to its default state. -/
def setCanvasWidth (s : App) (w : ℚ) : App :=
  { s with canvas := ⟨toUnsignedLong w, s.canvas.height, []⟩, ctx := Ctx.initial }

/-- Assigning `canvas.height`: same reset. -/
def setCanvasHeight (s : App) (h : ℚ) : App :=
  { s with canvas := ⟨s.canvas.width, toUnsignedLong h, []⟩, ctx := Ctx.initial }

/-! ## The component -/

/-- `resizeCanvas`, for a window of `innerWidth × innerHeight`. -/
def resizeCanvas (s : App) (innerWidth innerHeight : Nat) : App :=
  let s := setCanvasWidth s (min ((innerWidth : ℚ) * (9 / 10)) 800)
  let s := setCanvasHeight s (min ((innerHeight : ℚ) * (7 / 10)) 600)
  let ctx := s.ctx.setFillStyle s.canvasBackground
  { s with ctx := ctx,
           canvas := ctx.fillRect s.canvas 0 0 (s.canvas.width : ℚ) (s.canvas.height : ℚ) }

/-- The `useState` initial values, with a new canvas element (300 × 150,
transparent) and its default context. -/
def initialState : App :=
  { isDrawing := false
    brushColor := ⟨0x25, 0x63, 0xeb⟩
    brushSize := .num 5
    brushStyle := .standard
    canvasBackground := ⟨0xff, 0xff, 0xff⟩
    showInstructions := true
    canvas := ⟨300, 150, []⟩
    ctx := Ctx.initial }

/-- The mount effect: set the line cap and join, then `resizeCanvas()`. -/
def mount (innerWidth innerHeight : Nat) : App :=
  let s := initialState
  let s := { s with ctx := { s.ctx with lineCap := .round } }
  let s := { s with ctx := { s.ctx with lineJoin := .round } }
  resizeCanvas s innerWidth innerHeight

def startDrawing (s : App) (p : Point) : App :=
  let ctx := s.ctx.beginPath
  let ctx := ctx.moveTo p.x p.y
  { s with ctx := ctx, isDrawing := true, showInstructions := false }

/-- `draw`; `r1`, `r2` are the values of the first and second `Math.random()`
call (made only by the impressionist and expressionist branches). -/
def draw (s : App) (p : Point) (r1 r2 : ℚ) : App :=
  if !s.isDrawing then s
  else
    match s.brushStyle with
    | .standard =>
      let ctx := s.ctx.setLineWidth s.brushSize.toNumber
      let ctx := ctx.setStrokeStyle s.brushColor
      let ctx := ctx.lineTo p.x p.y
      { s with ctx := ctx, canvas := ctx.stroke s.canvas }
    | .impressionist =>
      let ctx := s.ctx.setLineWidth (s.brushSize.toNumber * 2)
      let ctx := ctx.setStrokeStyle s.brushColor
      let ctx := ctx.setGlobalAlpha (1 / 2)
      let ctx := ctx.beginPath
      let ctx := ctx.moveTo (p.x + r1 * 5) (p.y + r2 * 5)
      let ctx := ctx.lineTo p.x p.y
      let cv := ctx.stroke s.canvas
      let ctx := ctx.setGlobalAlpha 1
      { s with ctx := ctx, canvas := cv }
    | .pointillist =>
      let ctx := s.ctx.beginPath
      let ctx := ctx.setFillStyle s.brushColor
      let ctx := ctx.arc p.x p.y (s.brushSize.toNumber / 2) 0 2
      { s with ctx := ctx, canvas := ctx.fill s.canvas }
    | .expressionist =>
      let ctx := s.ctx.setLineWidth (s.brushSize.toNumber * (3 / 2))
      let ctx := ctx.setStrokeStyle s.brushColor
      let ctx := ctx.lineTo (p.x + r1 * 2) (p.y + r2 * 2)
      { s with ctx := ctx, canvas := ctx.stroke s.canvas }
    | .eraser =>
      let ctx := s.ctx.setLineWidth (s.brushSize.toNumber * 2)
      let ctx := ctx.setStrokeStyle s.canvasBackground
      let ctx := ctx.lineTo p.x p.y
      { s with ctx := ctx, canvas := ctx.stroke s.canvas }

def stopDrawing (s : App) : App :=
  { s with ctx := s.ctx.closePath, isDrawing := false }

def clearCanvas (s : App) : App :=
  let ctx := s.ctx.setFillStyle s.canvasBackground
  { s with ctx := ctx,
           canvas := ctx.fillRect s.canvas 0 0 (s.canvas.width : ℚ) (s.canvas.height : ℚ),
           showInstructions := true }

/-- An image: the rows of pixels of a bitmap, top to bottom. -/
abbrev Image := List (List Pixel)

/-- `canvas.toDataURL('image/png')`: the pixel rows of the bitmap (the PNG
encoding is lossless and is left out). -/
def toDataURL (rast : Raster) (cv : Canvas) : Image :=
  (List.range cv.height).map fun y => (List.range cv.width).map fun x => pixel rast cv x y

/-- `downloadImage`: the image offered for download; no state is changed. -/
def downloadImage (rast : Raster) (s : App) : Image := toDataURL rast s.canvas

/-- The slider's `onChange`: `setBrushSize(e.target.value)`, the value being
the decimal string of the slider position `n`. -/
def onSizeChange (s : App) (n : Nat) : App := { s with brushSize := .str n }

def setBrushStyle (s : App) (st : BrushStyle) : App := { s with brushStyle := st }

def setBrushColor (s : App) (c : Color) : App := { s with brushColor := c }

/-- The events the component reacts to. -/
inductive Event
  | start (p : Point)
  | continueAt (p : Point) (r1 r2 : ℚ)
  | stop
  | clear
  | resize (innerWidth innerHeight : Nat)
  | setColor (c : Color)
  | setSize (n : Nat)
  | setStyle (st : BrushStyle)
  | download

/-- The handler bound to each event. -/
def step (s : App) : Event → App
  | .start p => startDrawing s p
  | .continueAt p r1 r2 => draw s p r1 r2
  | .stop => stopDrawing s
  | .clear => clearCanvas s
  | .resize w h => resizeCanvas s w h
  | .setColor c => setBrushColor s c
  | .setSize n => onSizeChange s n
  | .setStyle st => setBrushStyle s st
  | .download => s

/-- State after mounting in a `W × H` window and handling `evs` in order. -/
def run (W H : Nat) (evs : List Event) : App := evs.foldl step (mount W H)

/-- The blank image of the given dimensions and colour. -/
def blankImage (w h : Nat) (c : Color) : Image :=
  List.replicate h (List.replicate w (Pixel.solid c))

/-- The paint operations a handler added to the bitmap. -/
def newOps (before after : App) : List PaintOp :=
  after.canvas.ops.drop before.canvas.ops.length

def Event.isStart : Event → Bool
  | .start _ => true
  | _ => false

def Event.isClear : Event → Bool
  | .clear => true
  | _ => false

/-- The spec's reading of the flag: among the events handled since mount, none
of those after the most recent clear (all of them when there was no clear) is a
start gesture. -/
def noStartSinceClear (evs : List Event) : Bool :=
  (evs.reverse.takeWhile fun e => !e.isClear).all fun e => !e.isStart

/-- The claim-side reading of "strokes exactly one segment from `a` to `b` with
width `lw` and colour `c`": the handler added one stroke whose path is that
segment alone. -/
def strokesOneSegment (ops : List PaintOp) (a b : Point) (lw : ℚ) (c : Color) : Bool :=
  match ops with
  | [.stroke path w col _ _ _] => decide (path = [.move a, .line b]) && decide (w = lw) &&
      decide (col = c)
  | _ => false

/-! ## Basic facts about the handlers -/

theorem newOps_append (a b : App) (l : List PaintOp) (h : b.canvas.ops = a.canvas.ops ++ l) :
    newOps a b = l := by
  simp [newOps, h]

theorem setLineWidth_of_pos (c : Ctx) (w : ℚ) (h : 0 < w) :
    c.setLineWidth w = { c with lineWidth := w } := by
  simp [Ctx.setLineWidth, h]

theorem setLineWidth_alpha (c : Ctx) (w : ℚ) :
    (c.setLineWidth w).globalAlpha = c.globalAlpha := by
  unfold Ctx.setLineWidth; split <;> rfl

theorem setLineWidth_cap (c : Ctx) (w : ℚ) : (c.setLineWidth w).lineCap = c.lineCap := by
  unfold Ctx.setLineWidth; split <;> rfl

theorem setLineWidth_join (c : Ctx) (w : ℚ) : (c.setLineWidth w).lineJoin = c.lineJoin := by
  unfold Ctx.setLineWidth; split <;> rfl

theorem lineTo_alpha (c : Ctx) (x y : ℚ) : (c.lineTo x y).globalAlpha = c.globalAlpha := by
  unfold Ctx.lineTo; split <;> rfl

theorem lineTo_lineWidth (c : Ctx) (x y : ℚ) : (c.lineTo x y).lineWidth = c.lineWidth := by
  unfold Ctx.lineTo; split <;> rfl

theorem lineTo_strokeStyle (c : Ctx) (x y : ℚ) :
    (c.lineTo x y).strokeStyle = c.strokeStyle := by
  unfold Ctx.lineTo; split <;> rfl

theorem lineTo_cap (c : Ctx) (x y : ℚ) : (c.lineTo x y).lineCap = c.lineCap := by
  unfold Ctx.lineTo; split <;> rfl

theorem lineTo_join (c : Ctx) (x y : ℚ) : (c.lineTo x y).lineJoin = c.lineJoin := by
  unfold Ctx.lineTo; split <;> rfl

theorem lineTo_path (c : Ctx) (x y : ℚ) :
    (c.lineTo x y).path =
      if c.path = [] then [.move ⟨x, y⟩] else c.path ++ [.line ⟨x, y⟩] := by
  unfold Ctx.lineTo; split <;> simp [*]

theorem lineTo_path_of_ne (c : Ctx) (x y : ℚ) (h : c.path ≠ []) :
    (c.lineTo x y).path = c.path ++ [.line ⟨x, y⟩] := by
  simp [Ctx.lineTo, h]

theorem closePath_alpha (c : Ctx) : c.closePath.globalAlpha = c.globalAlpha := by
  unfold Ctx.closePath; split <;> rfl

theorem draw_of_idle (s : App) (p : Point) (r1 r2 : ℚ) (h : s.isDrawing = false) :
    draw s p r1 r2 = s := by
  simp [draw, h]

theorem draw_standard (s : App) (p : Point) (r1 r2 : ℚ) (hd : s.isDrawing = true)
    (hs : s.brushStyle = .standard) :
    draw s p r1 r2 =
      { s with
        ctx := ((s.ctx.setLineWidth s.brushSize.toNumber).setStrokeStyle s.brushColor).lineTo
          p.x p.y
        canvas := (((s.ctx.setLineWidth s.brushSize.toNumber).setStrokeStyle
          s.brushColor).lineTo p.x p.y).stroke s.canvas } := by
  simp [draw, hd, hs]

/-! ## Pixels under a full-opacity operation -/

theorem over_one (c : Color) (d : Pixel) : over c 1 d = Pixel.solid c := by
  simp [over, Pixel.solid]

theorem clamp01_of_one_le (q : ℚ) (h : 1 ≤ q) : clamp01 q = 1 := by
  simp [clamp01, h]

theorem rectCov_full (w h x y : Nat) (hx : x < w) (hy : y < h) :
    rectCov 0 0 (w : ℚ) (h : ℚ) x y = 1 := by
  have hx1 : ((x : ℚ) + 1) ≤ (w : ℚ) := by exact_mod_cast hx
  have hy1 : ((y : ℚ) + 1) ≤ (h : ℚ) := by exact_mod_cast hy
  have hx0 : (0 : ℚ) ≤ (x : ℚ) := Nat.cast_nonneg x
  have hy0 : (0 : ℚ) ≤ (y : ℚ) := Nat.cast_nonneg y
  simp [rectCov, min_eq_left hx1, min_eq_left hy1, max_eq_left hx0, max_eq_left hy0]

theorem pixel_append_full (rast : Raster) (cv : Canvas) (ops : List PaintOp) (op : PaintOp)
    (x y : Nat) (hops : cv.ops = ops ++ [op]) (ha : op.alpha = 1)
    (hc : 1 ≤ op.cov rast x y) : pixel rast cv x y = Pixel.solid op.style := by
  simp [pixel, hops, List.foldl_append, PaintOp.paint, ha, clamp01_of_one_le _ hc, over_one]

theorem map_range_eq_replicate {α : Type} (n : Nat) (f : Nat → α) (a : α)
    (h : ∀ i, i < n → f i = a) : (List.range n).map f = List.replicate n a := by
  rw [List.eq_replicate_iff]
  refine ⟨by simp, ?_⟩
  intro b hb
  obtain ⟨i, hi, rfl⟩ := List.mem_map.1 hb
  exact h i (List.mem_range.1 hi)

theorem toDataURL_blank (rast : Raster) (cv : Canvas) (ops : List PaintOp) (c : Color)
    (hops : cv.ops = ops ++ [.fillRect 0 0 (cv.width : ℚ) (cv.height : ℚ) c 1]) :
    toDataURL rast cv = blankImage cv.width cv.height c := by
  unfold toDataURL blankImage
  apply map_range_eq_replicate
  intro y hy
  apply map_range_eq_replicate
  intro x hx
  have := pixel_append_full rast cv ops _ x y hops rfl
    (by simp [PaintOp.cov, rectCov_full _ _ _ _ hx hy])
  simpa [PaintOp.style] using this

/-! ## Invariants of the reachable states -/

theorem draw_alpha (s : App) (p : Point) (r1 r2 : ℚ) (h : s.ctx.globalAlpha = 1) :
    (draw s p r1 r2).ctx.globalAlpha = 1 := by
  unfold draw
  split
  · exact h
  · split <;>
      simp [Ctx.setGlobalAlpha, Ctx.setStrokeStyle, Ctx.setFillStyle, Ctx.beginPath, Ctx.arc,
        Ctx.moveTo, lineTo_alpha, setLineWidth_alpha, h]

theorem resizeCanvas_alpha (s : App) (W H : Nat) : (resizeCanvas s W H).ctx.globalAlpha = 1 := by
  simp [resizeCanvas, setCanvasHeight, setCanvasWidth, Ctx.setFillStyle, Ctx.initial]

theorem step_alpha (s : App) (e : Event) (h : s.ctx.globalAlpha = 1) :
    (step s e).ctx.globalAlpha = 1 := by
  cases e with
  | continueAt p r1 r2 => exact draw_alpha s p r1 r2 h
  | resize W H => exact resizeCanvas_alpha s W H
  | stop => simpa [step, stopDrawing, closePath_alpha] using h
  | _ =>
    simpa [step, startDrawing, clearCanvas, setBrushColor, onSizeChange, setBrushStyle,
      Ctx.beginPath, Ctx.moveTo, Ctx.setFillStyle] using h

theorem draw_background (s : App) (p : Point) (r1 r2 : ℚ) :
    (draw s p r1 r2).canvasBackground = s.canvasBackground := by
  unfold draw
  split
  · rfl
  · split <;> rfl

theorem step_background (s : App) (e : Event) :
    (step s e).canvasBackground = s.canvasBackground := by
  cases e with
  | continueAt p r1 r2 => exact draw_background s p r1 r2
  | _ => rfl

theorem foldl_step_alpha (evs : List Event) (s : App) (h : s.ctx.globalAlpha = 1) :
    (evs.foldl step s).ctx.globalAlpha = 1 := by
  induction evs generalizing s with
  | nil => exact h
  | cons e es ih => exact ih (step s e) (step_alpha s e h)

theorem foldl_step_background (evs : List Event) (s : App) :
    (evs.foldl step s).canvasBackground = s.canvasBackground := by
  induction evs generalizing s with
  | nil => rfl
  | cons e es ih => exact (ih (step s e)).trans (step_background s e)

theorem run_alpha (W H : Nat) (evs : List Event) : (run W H evs).ctx.globalAlpha = 1 :=
  foldl_step_alpha evs _ (resizeCanvas_alpha _ W H)

theorem run_background (W H : Nat) (evs : List Event) :
    (run W H evs).canvasBackground = initialState.canvasBackground :=
  foldl_step_background evs _

theorem draw_impressionist (s : App) (p : Point) (r1 r2 : ℚ) (hd : s.isDrawing = true)
    (hs : s.brushStyle = .impressionist) :
    draw s p r1 r2 =
      { s with
        ctx := { s.ctx.setLineWidth (s.brushSize.toNumber * 2) with
          strokeStyle := s.brushColor
          globalAlpha := 1
          path := [.move ⟨p.x + r1 * 5, p.y + r2 * 5⟩, .line p] }
        canvas := { s.canvas with
          ops := s.canvas.ops ++
            [.stroke [.move ⟨p.x + r1 * 5, p.y + r2 * 5⟩, .line p]
              (s.ctx.setLineWidth (s.brushSize.toNumber * 2)).lineWidth s.brushColor (1 / 2)
              s.ctx.lineCap s.ctx.lineJoin] } } := by
  simp [draw, hd, hs, Ctx.setGlobalAlpha, Ctx.setStrokeStyle, Ctx.beginPath, Ctx.moveTo,
    Ctx.lineTo, Ctx.stroke, setLineWidth_cap, setLineWidth_join]
  norm_num

theorem draw_pointillist (s : App) (p : Point) (r1 r2 : ℚ) (hd : s.isDrawing = true)
    (hs : s.brushStyle = .pointillist) :
    draw s p r1 r2 =
      { s with
        ctx := { s.ctx with
          fillStyle := s.brushColor
          path := [.arc p.x p.y (s.brushSize.toNumber / 2) 0 2] }
        canvas := { s.canvas with
          ops := s.canvas.ops ++
            [.fill [.arc p.x p.y (s.brushSize.toNumber / 2) 0 2] s.brushColor
              s.ctx.globalAlpha] } } := by
  simp [draw, hd, hs, Ctx.setFillStyle, Ctx.beginPath, Ctx.arc, Ctx.fill]

theorem draw_expressionist (s : App) (p : Point) (r1 r2 : ℚ) (hd : s.isDrawing = true)
    (hs : s.brushStyle = .expressionist) :
    draw s p r1 r2 =
      { s with
        ctx := ((s.ctx.setLineWidth (s.brushSize.toNumber * (3 / 2))).setStrokeStyle
          s.brushColor).lineTo (p.x + r1 * 2) (p.y + r2 * 2)
        canvas := (((s.ctx.setLineWidth (s.brushSize.toNumber * (3 / 2))).setStrokeStyle
          s.brushColor).lineTo (p.x + r1 * 2) (p.y + r2 * 2)).stroke s.canvas } := by
  simp [draw, hd, hs]

theorem draw_showInstructions (s : App) (p : Point) (r1 r2 : ℚ) :
    (draw s p r1 r2).showInstructions = s.showInstructions := by
  unfold draw
  split
  · rfl
  · split <;> rfl

theorem step_showInstructions (s : App) (e : Event) :
    (step s e).showInstructions =
      if e.isClear then true else if e.isStart then false else s.showInstructions := by
  cases e with
  | continueAt p r1 r2 => exact draw_showInstructions s p r1 r2
  | _ => rfl

theorem noStartSinceClear_append (es : List Event) (e : Event) :
    noStartSinceClear (es ++ [e]) =
      if e.isClear then true else if e.isStart then false else noStartSinceClear es := by
  unfold noStartSinceClear
  rw [List.reverse_append, List.reverse_singleton, List.singleton_append, List.takeWhile_cons]
  cases hc : e.isClear <;> cases hs : e.isStart <;> simp [hc, hs]

theorem run_append (W H : Nat) (es : List Event) (e : Event) :
    run W H (es ++ [e]) = step (run W H es) e := by
  simp [run, List.foldl_append]

/-! ## Claims -/

/-- C1: a continue gesture delivered while idle (`isDrawing = false`) leaves the
whole state as it was, for every brush configuration, point and surface /
context state: the handler returns the state it was given, so it adds no paint
operation, every pixel keeps its value, and the current path, `lineWidth`,
`strokeStyle`, `fillStyle`, `globalAlpha`, `isDrawing` and `showInstructions`
are unchanged. -/
theorem draw_idle_changes_nothing (s : App) (p : Point) (r1 r2 : ℚ)
    (h : s.isDrawing = false) :
    draw s p r1 r2 = s ∧ newOps s (draw s p r1 r2) = [] ∧
      (∀ (rast : Raster) (x y : Nat),
        pixel rast (draw s p r1 r2).canvas x y = pixel rast s.canvas x y) ∧
      (draw s p r1 r2).ctx.path = s.ctx.path ∧
      (draw s p r1 r2).ctx.lineWidth = s.ctx.lineWidth ∧
      (draw s p r1 r2).ctx.strokeStyle = s.ctx.strokeStyle ∧
      (draw s p r1 r2).ctx.fillStyle = s.ctx.fillStyle ∧
      (draw s p r1 r2).ctx.globalAlpha = s.ctx.globalAlpha ∧
      (draw s p r1 r2).isDrawing = s.isDrawing ∧
      (draw s p r1 r2).showInstructions = s.showInstructions := by
  rw [draw_of_idle s p r1 r2 h]
  simp [newOps]

theorem draw_idle_changes_nothing_witness :
    (mount 1000 1000).isDrawing = false ∧
      draw (mount 1000 1000) ⟨10, 10⟩ 0 0 = mount 1000 1000 :=
  ⟨rfl, (draw_idle_changes_nothing (mount 1000 1000) ⟨10, 10⟩ 0 0 rfl).1⟩

/-- C2, the claim as stated fails: after a start at (10,10) and one earlier
standard continue to (20,20), a standard continue to (30,30) strokes the path
(10,10) → (20,20) → (30,30), so the earlier segment is stroked again and the
stroke is not the single segment from the previous position (20,20) to
(30,30). -/
theorem standard_restrokes_earlier_segment :
    (run 1000 1000 [.start ⟨10, 10⟩, .continueAt ⟨20, 20⟩ 0 0]).isDrawing = true ∧
      (run 1000 1000 [.start ⟨10, 10⟩, .continueAt ⟨20, 20⟩ 0 0]).brushStyle = .standard ∧
      (run 1000 1000 [.start ⟨10, 10⟩, .continueAt ⟨20, 20⟩ 0 0]).ctx.path =
        [.move ⟨10, 10⟩, .line ⟨20, 20⟩] ∧
      newOps (run 1000 1000 [.start ⟨10, 10⟩, .continueAt ⟨20, 20⟩ 0 0])
          (draw (run 1000 1000 [.start ⟨10, 10⟩, .continueAt ⟨20, 20⟩ 0 0]) ⟨30, 30⟩ 0 0) =
        [.stroke [.move ⟨10, 10⟩, .line ⟨20, 20⟩, .line ⟨30, 30⟩] 5 ⟨0x25, 0x63, 0xeb⟩ 1
          .butt .miter] ∧
      strokesOneSegment
          (newOps (run 1000 1000 [.start ⟨10, 10⟩, .continueAt ⟨20, 20⟩ 0 0])
            (draw (run 1000 1000 [.start ⟨10, 10⟩, .continueAt ⟨20, 20⟩ 0 0]) ⟨30, 30⟩ 0 0))
          ⟨20, 20⟩ ⟨30, 30⟩ 5 ⟨0x25, 0x63, 0xeb⟩ = false := by
  have h : newOps (run 1000 1000 [.start ⟨10, 10⟩, .continueAt ⟨20, 20⟩ 0 0])
      (draw (run 1000 1000 [.start ⟨10, 10⟩, .continueAt ⟨20, 20⟩ 0 0]) ⟨30, 30⟩ 0 0) =
      [.stroke [.move ⟨10, 10⟩, .line ⟨20, 20⟩, .line ⟨30, 30⟩] 5 ⟨0x25, 0x63, 0xeb⟩ 1
        .butt .miter] := by
    simp [newOps, run, step, startDrawing, draw, Ctx.beginPath, Ctx.moveTo, Ctx.lineTo,
      Ctx.setStrokeStyle, Ctx.setLineWidth, Ctx.stroke, Ctx.fillRect, Ctx.setFillStyle, mount,
      resizeCanvas, initialState, setCanvasHeight, setCanvasWidth, JsSize.toNumber,
      Ctx.initial]
  refine ⟨rfl, rfl, rfl, h, ?_⟩
  rw [h]
  simp [strokesOneSegment]

/-- C2, amended: while a stroke is in progress, a continue gesture with style
standard (size at least 1, path begun by a start gesture) adds exactly one
stroke, of width = size and colour = color, whose path is the whole current
path extended by the segment to `p`; segments added by earlier continue
gestures are therefore stroked again.  When the path holds only the start
point `a` (the first continue after the start) the stroke is exactly the one
segment from `a` to `p`. -/
theorem standard_strokes_current_path (s : App) (p : Point) (r1 r2 : ℚ)
    (hd : s.isDrawing = true) (hs : s.brushStyle = .standard)
    (hsz : 0 < s.brushSize.toNumber) (hp : s.ctx.path ≠ []) :
    newOps s (draw s p r1 r2) =
        [.stroke (s.ctx.path ++ [.line p]) s.brushSize.toNumber s.brushColor
          s.ctx.globalAlpha s.ctx.lineCap s.ctx.lineJoin] ∧
      (draw s p r1 r2).ctx.path = s.ctx.path ++ [.line p] ∧
      (∀ a : Point, s.ctx.path = [.move a] →
        strokesOneSegment (newOps s (draw s p r1 r2)) a p s.brushSize.toNumber s.brushColor =
          true) := by
  have hops : newOps s (draw s p r1 r2) =
      [.stroke (s.ctx.path ++ [.line p]) s.brushSize.toNumber s.brushColor
        s.ctx.globalAlpha s.ctx.lineCap s.ctx.lineJoin] := by
    apply newOps_append
    rw [draw_standard s p r1 r2 hd hs]
    simp [Ctx.stroke, Ctx.lineTo, Ctx.setStrokeStyle, setLineWidth_of_pos _ _ hsz, hp]
  refine ⟨hops, ?_, ?_⟩
  · rw [draw_standard s p r1 r2 hd hs]
    simp [Ctx.lineTo, Ctx.setStrokeStyle, setLineWidth_of_pos _ _ hsz, hp]
  · intro a ha
    rw [hops, ha]
    simp [strokesOneSegment]

theorem standard_strokes_current_path_witness :
    strokesOneSegment
        (newOps (startDrawing (mount 1000 1000) ⟨10, 10⟩)
          (draw (startDrawing (mount 1000 1000) ⟨10, 10⟩) ⟨20, 20⟩ 0 0))
        ⟨10, 10⟩ ⟨20, 20⟩ (startDrawing (mount 1000 1000) ⟨10, 10⟩).brushSize.toNumber
        ⟨0x25, 0x63, 0xeb⟩ = true ∧
      (startDrawing (mount 1000 1000) ⟨10, 10⟩).brushSize.toNumber = 5 ∧
      (stopDrawing (draw (startDrawing (mount 1000 1000) ⟨10, 10⟩) ⟨20, 20⟩ 0 0)).canvas.ops =
        (mount 1000 1000).canvas.ops ++
          [.stroke [.move ⟨10, 10⟩, .line ⟨20, 20⟩] 5 ⟨0x25, 0x63, 0xeb⟩ 1 .butt .miter] :=
  ⟨(standard_strokes_current_path (startDrawing (mount 1000 1000) ⟨10, 10⟩) ⟨20, 20⟩ 0 0 rfl rfl
      (by norm_num [startDrawing, mount, resizeCanvas, initialState, setCanvasHeight,
        setCanvasWidth, JsSize.toNumber])
      (by simp [startDrawing, Ctx.beginPath, Ctx.moveTo])).2.2 ⟨10, 10⟩ rfl,
    by norm_num [startDrawing, mount, resizeCanvas, initialState, setCanvasHeight,
        setCanvasWidth, JsSize.toNumber],
    by simp [stopDrawing, startDrawing, draw, Ctx.beginPath, Ctx.moveTo, Ctx.lineTo,
      Ctx.setStrokeStyle, Ctx.setLineWidth, Ctx.stroke, Ctx.fillRect, Ctx.setFillStyle, mount,
      resizeCanvas, initialState, setCanvasHeight, setCanvasWidth, JsSize.toNumber,
      Ctx.initial]⟩

theorem draw_eraser (s : App) (p : Point) (r1 r2 : ℚ) (hd : s.isDrawing = true)
    (hs : s.brushStyle = .eraser) :
    draw s p r1 r2 =
      { s with
        ctx := ((s.ctx.setLineWidth (s.brushSize.toNumber * 2)).setStrokeStyle
          s.canvasBackground).lineTo p.x p.y
        canvas := (((s.ctx.setLineWidth (s.brushSize.toNumber * 2)).setStrokeStyle
          s.canvasBackground).lineTo p.x p.y).stroke s.canvas } := by
  simp [draw, hd, hs]

theorem mount_ops (W H : Nat) :
    (mount W H).canvas.ops =
      [] ++ [.fillRect 0 0 ((mount W H).canvas.width : ℚ) ((mount W H).canvas.height : ℚ)
        initialState.canvasBackground 1] := by
  simp [mount, resizeCanvas, setCanvasHeight, setCanvasWidth, Ctx.setFillStyle, Ctx.fillRect,
    Ctx.initial, initialState]

theorem clearCanvas_ops (s : App) :
    (clearCanvas s).canvas.ops =
      s.canvas.ops ++ [.fillRect 0 0 (s.canvas.width : ℚ) (s.canvas.height : ℚ)
        s.canvasBackground s.ctx.globalAlpha] := by
  simp [clearCanvas, Ctx.setFillStyle, Ctx.fillRect]

/-- C4: for every state reachable from mount by any sequence of events (gestures
in any of the five styles included), the image that `downloadImage` serialises
after `clearCanvas` has every pixel equal to the background colour at full
opacity, and it is equal, pixel for pixel, to the image of a freshly mounted
canvas of the same dimensions. -/
theorem clear_then_export_blank (rast : Raster) (W H : Nat) (evs : List Event) :
    downloadImage rast (clearCanvas (run W H evs)) =
        blankImage (run W H evs).canvas.width (run W H evs).canvas.height
          initialState.canvasBackground ∧
      ∀ W0 H0 : Nat, (mount W0 H0).canvas.width = (run W H evs).canvas.width →
        (mount W0 H0).canvas.height = (run W H evs).canvas.height →
        downloadImage rast (clearCanvas (run W H evs)) = downloadImage rast (mount W0 H0) := by
  have h1 : downloadImage rast (clearCanvas (run W H evs)) =
      blankImage (run W H evs).canvas.width (run W H evs).canvas.height
        initialState.canvasBackground := by
    have := toDataURL_blank rast (clearCanvas (run W H evs)).canvas (run W H evs).canvas.ops
      initialState.canvasBackground
      (by rw [clearCanvas_ops, run_alpha, run_background]; rfl)
    simpa [downloadImage, clearCanvas, Ctx.fillRect] using this
  refine ⟨h1, ?_⟩
  intro W0 H0 hw hh
  rw [h1, ← hw, ← hh]
  exact (toDataURL_blank rast (mount W0 H0).canvas [] initialState.canvasBackground
    (mount_ops W0 H0)).symm

theorem clear_then_export_blank_witness :
    (mount 10 10).canvas.width =
        (run 10 10 [.start ⟨1, 1⟩, .continueAt ⟨3, 3⟩ 0 0, .stop]).canvas.width ∧
      (mount 10 10).canvas.height =
        (run 10 10 [.start ⟨1, 1⟩, .continueAt ⟨3, 3⟩ 0 0, .stop]).canvas.height ∧
      downloadImage ⟨fun _ _ _ _ _ _ => 1, fun _ _ => 1⟩
          (clearCanvas (run 10 10 [.start ⟨1, 1⟩, .continueAt ⟨3, 3⟩ 0 0, .stop])) =
        downloadImage ⟨fun _ _ _ _ _ _ => 1, fun _ _ => 1⟩ (mount 10 10) :=
  ⟨rfl, rfl,
    (clear_then_export_blank ⟨fun _ _ _ _ _ _ => 1, fun _ _ => 1⟩ 10 10
      [.start ⟨1, 1⟩, .continueAt ⟨3, 3⟩ 0 0, .stop]).2 10 10 rfl rfl⟩

/-- C6: while a stroke is in progress, a continue gesture at `p` with style
impressionist adds exactly one stroke; its path is a new path made of the one
segment from the jittered point to `p` (nothing of the previous path is in it),
it is stroked in the brush colour at `globalAlpha = 0.5`, and `globalAlpha` is
1 when the handler returns.  Hence `globalAlpha = 1` in every state reachable
from mount, that is between any two event handlers. -/
theorem impressionist_segment (s : App) (p : Point) (r1 r2 : ℚ) (hd : s.isDrawing = true)
    (hs : s.brushStyle = .impressionist) :
    newOps s (draw s p r1 r2) =
        [.stroke [.move ⟨p.x + r1 * 5, p.y + r2 * 5⟩, .line p]
          (s.ctx.setLineWidth (s.brushSize.toNumber * 2)).lineWidth s.brushColor (1 / 2)
          s.ctx.lineCap s.ctx.lineJoin] ∧
      (draw s p r1 r2).ctx.path = [.move ⟨p.x + r1 * 5, p.y + r2 * 5⟩, .line p] ∧
      (draw s p r1 r2).ctx.globalAlpha = 1 ∧
      ∀ (W H : Nat) (evs : List Event), (run W H evs).ctx.globalAlpha = 1 := by
  refine ⟨?_, ?_, ?_, run_alpha⟩
  · apply newOps_append
    rw [draw_impressionist s p r1 r2 hd hs]
  · rw [draw_impressionist s p r1 r2 hd hs]
  · rw [draw_impressionist s p r1 r2 hd hs]

theorem impressionist_segment_witness :
    (run 1000 1000 [.setStyle .impressionist, .start ⟨10, 10⟩]).isDrawing = true ∧
      (run 1000 1000 [.setStyle .impressionist, .start ⟨10, 10⟩]).brushStyle = .impressionist ∧
      (draw (run 1000 1000 [.setStyle .impressionist, .start ⟨10, 10⟩]) ⟨20, 20⟩ (1 / 2)
        (1 / 4)).ctx.globalAlpha = 1 :=
  ⟨rfl, rfl,
    (impressionist_segment (run 1000 1000 [.setStyle .impressionist, .start ⟨10, 10⟩]) ⟨20, 20⟩
      (1 / 2) (1 / 4) rfl rfl).2.2.1⟩

/-- C8: for every size `n ≥ 1` (so for every size in 1..50), held by `brushSize` either as the initial
number or as the string the size slider delivers, and every state with a stroke
in progress, the continue gesture adds exactly one paint operation: a stroke of
line width `n` for standard, `2·n` for impressionist, `3·n/2` for expressionist
and `2·n` for eraser, and for pointillist the fill of a path holding one arc
alone, centred at the current point with radius `n/2` from angle 0 to 2π, which
does not involve the previous path.  The slider handler stores the size it is
given and changes nothing else that the gesture reads. -/
theorem brush_footprint (s : App) (n : Nat) (p : Point) (r1 r2 : ℚ)
    (hd : s.isDrawing = true) (hlo : 1 ≤ n)
    (hsz : s.brushSize = .num n ∨ s.brushSize = .str n) :
    (newOps (setBrushStyle s .standard) (draw (setBrushStyle s .standard) p r1 r2)).map
        PaintOp.lineWidth? = [some (n : ℚ)] ∧
      (newOps (setBrushStyle s .impressionist)
        (draw (setBrushStyle s .impressionist) p r1 r2)).map PaintOp.lineWidth? =
          [some (2 * (n : ℚ))] ∧
      (newOps (setBrushStyle s .expressionist)
        (draw (setBrushStyle s .expressionist) p r1 r2)).map PaintOp.lineWidth? =
          [some (3 * (n : ℚ) / 2)] ∧
      (newOps (setBrushStyle s .eraser) (draw (setBrushStyle s .eraser) p r1 r2)).map
        PaintOp.lineWidth? = [some (2 * (n : ℚ))] ∧
      newOps (setBrushStyle s .pointillist) (draw (setBrushStyle s .pointillist) p r1 r2) =
        [.fill [.arc p.x p.y ((n : ℚ) / 2) 0 2] s.brushColor s.ctx.globalAlpha] ∧
      (draw (setBrushStyle s .standard) p r1 r2).ctx.lineWidth = (n : ℚ) ∧
      (draw (setBrushStyle s .impressionist) p r1 r2).ctx.lineWidth = 2 * (n : ℚ) ∧
      (draw (setBrushStyle s .expressionist) p r1 r2).ctx.lineWidth = 3 * (n : ℚ) / 2 ∧
      (draw (setBrushStyle s .eraser) p r1 r2).ctx.lineWidth = 2 * (n : ℚ) ∧
      onSizeChange s n = { s with brushSize := .str n } := by
  have hn : s.brushSize.toNumber = (n : ℚ) := by
    rcases hsz with h | h <;> simp [h, JsSize.toNumber]
  have hpos : (0 : ℚ) < (n : ℚ) := by exact_mod_cast hlo
  have hpos2 : (0 : ℚ) < (n : ℚ) * 2 := by positivity
  have hpos3 : (0 : ℚ) < (n : ℚ) * (3 / 2) := by positivity
  have hst := draw_standard (setBrushStyle s .standard) p r1 r2 hd rfl
  have him := draw_impressionist (setBrushStyle s .impressionist) p r1 r2 hd rfl
  have hex := draw_expressionist (setBrushStyle s .expressionist) p r1 r2 hd rfl
  have her := draw_eraser (setBrushStyle s .eraser) p r1 r2 hd rfl
  have hpt := draw_pointillist (setBrushStyle s .pointillist) p r1 r2 hd rfl
  simp only [setBrushStyle, hn] at hst him hex her hpt
  rw [setLineWidth_of_pos _ _ hpos] at hst
  rw [setLineWidth_of_pos _ _ hpos2] at him her
  rw [setLineWidth_of_pos _ _ hpos3] at hex
  have e1 : newOps (setBrushStyle s .standard) (draw (setBrushStyle s .standard) p r1 r2) =
      [.stroke (s.ctx.lineTo p.x p.y).path (n : ℚ) s.brushColor s.ctx.globalAlpha
        s.ctx.lineCap s.ctx.lineJoin] := by
    apply newOps_append
    simp only [setBrushStyle]
    rw [hst]
    simp [Ctx.stroke, Ctx.setStrokeStyle, lineTo_alpha, lineTo_lineWidth, lineTo_strokeStyle,
      lineTo_cap, lineTo_join, lineTo_path]
  have e2 : newOps (setBrushStyle s .impressionist)
      (draw (setBrushStyle s .impressionist) p r1 r2) =
      [.stroke [.move ⟨p.x + r1 * 5, p.y + r2 * 5⟩, .line p] ((n : ℚ) * 2) s.brushColor
        (1 / 2) s.ctx.lineCap s.ctx.lineJoin] := by
    apply newOps_append
    simp only [setBrushStyle]
    rw [him]
  have e3 : newOps (setBrushStyle s .expressionist)
      (draw (setBrushStyle s .expressionist) p r1 r2) =
      [.stroke (s.ctx.lineTo (p.x + r1 * 2) (p.y + r2 * 2)).path ((n : ℚ) * (3 / 2))
        s.brushColor s.ctx.globalAlpha s.ctx.lineCap s.ctx.lineJoin] := by
    apply newOps_append
    simp only [setBrushStyle]
    rw [hex]
    simp [Ctx.stroke, Ctx.setStrokeStyle, lineTo_alpha, lineTo_lineWidth, lineTo_strokeStyle,
      lineTo_cap, lineTo_join, lineTo_path]
  have e4 : newOps (setBrushStyle s .eraser) (draw (setBrushStyle s .eraser) p r1 r2) =
      [.stroke (s.ctx.lineTo p.x p.y).path ((n : ℚ) * 2) s.canvasBackground s.ctx.globalAlpha
        s.ctx.lineCap s.ctx.lineJoin] := by
    apply newOps_append
    simp only [setBrushStyle]
    rw [her]
    simp [Ctx.stroke, Ctx.setStrokeStyle, lineTo_alpha, lineTo_lineWidth, lineTo_strokeStyle,
      lineTo_cap, lineTo_join, lineTo_path]
  have e5 : newOps (setBrushStyle s .pointillist)
      (draw (setBrushStyle s .pointillist) p r1 r2) =
      [.fill [.arc p.x p.y ((n : ℚ) / 2) 0 2] s.brushColor s.ctx.globalAlpha] := by
    apply newOps_append
    simp only [setBrushStyle]
    rw [hpt]
  simp only [setBrushStyle] at e1 e2 e3 e4 e5 ⊢
  refine ⟨?_, ?_, ?_, ?_, e5, ?_, ?_, ?_, ?_, rfl⟩
  · rw [e1]; rfl
  · rw [e2]; simp [PaintOp.lineWidth?, mul_comm]
  · rw [e3]; simp [PaintOp.lineWidth?]; ring
  · rw [e4]; simp [PaintOp.lineWidth?, mul_comm]
  · rw [hst]; simp [lineTo_lineWidth, Ctx.setStrokeStyle]
  · rw [him]; simp [mul_comm]
  · rw [hex]; simp [lineTo_lineWidth, Ctx.setStrokeStyle]; ring
  · rw [her]; simp [lineTo_lineWidth, Ctx.setStrokeStyle, mul_comm]

theorem brush_footprint_witness :
    (startDrawing (onSizeChange (mount 1000 1000) 7) ⟨0, 0⟩).isDrawing = true ∧
      (startDrawing (onSizeChange (mount 1000 1000) 7) ⟨0, 0⟩).brushSize = .str 7 ∧
      newOps (setBrushStyle (startDrawing (onSizeChange (mount 1000 1000) 7) ⟨0, 0⟩) .pointillist)
          (draw (setBrushStyle (startDrawing (onSizeChange (mount 1000 1000) 7) ⟨0, 0⟩)
            .pointillist) ⟨10, 10⟩ 0 0) =
        [.fill [.arc 10 10 (((7 : Nat) : ℚ) / 2) 0 2]
          (startDrawing (onSizeChange (mount 1000 1000) 7) ⟨0, 0⟩).brushColor
          (startDrawing (onSizeChange (mount 1000 1000) 7) ⟨0, 0⟩).ctx.globalAlpha] :=
  ⟨rfl, rfl,
    (brush_footprint (startDrawing (onSizeChange (mount 1000 1000) 7) ⟨0, 0⟩) 7 ⟨10, 10⟩ 0 0
      rfl (by decide) (Or.inr rfl)).2.2.2.2.1⟩

/-- C9: over every sequence of events from mount, `showInstructions` is true
exactly when no start gesture has occurred since mount or since the most recent
clear; a start gesture makes it false, a clear makes it true, and every other
event (continue, stop, resize, colour / size / style change, download) leaves
it unchanged. -/
theorem showInstructions_tracks_no_start (W H : Nat) (evs : List Event) :
    (run W H evs).showInstructions = noStartSinceClear evs ∧
      (∀ (s : App) (p : Point), (step s (.start p)).showInstructions = false) ∧
      (∀ s : App, (step s .clear).showInstructions = true) ∧
      (∀ (s : App) (e : Event), e.isStart = false → e.isClear = false →
        (step s e).showInstructions = s.showInstructions) := by
  refine ⟨?_, fun _ _ => rfl, fun _ => rfl, ?_⟩
  · induction evs using List.reverseRecOn with
    | nil => rfl
    | append_singleton es e ih =>
      rw [run_append, step_showInstructions, noStartSinceClear_append, ih]
  · intro s e hs hc
    rw [step_showInstructions, hs, hc]
    rfl

theorem showInstructions_tracks_no_start_witness :
    (Event.resize 500 500).isStart = false ∧ (Event.resize 500 500).isClear = false ∧
      (step (run 1000 1000 [.start ⟨10, 10⟩, .stop]) (.resize 500 500)).showInstructions =
        (run 1000 1000 [.start ⟨10, 10⟩, .stop]).showInstructions :=
  ⟨rfl, rfl,
    (showInstructions_tracks_no_start 1000 1000 [.start ⟨10, 10⟩, .stop]).2.2.2
      (run 1000 1000 [.start ⟨10, 10⟩, .stop]) (.resize 500 500) rfl rfl⟩

/-- C10, the claim as stated fails: after a start at (10,10) and a continue to
(20,20), `clearCanvas` leaves the segment (10,10) → (20,20) in the current path
and leaves the stroke in progress, and the continue to (30,30) delivered right
after the clear strokes that segment again. -/
theorem clear_keeps_path_in_progress :
    (run 1000 1000 [.start ⟨10, 10⟩, .continueAt ⟨20, 20⟩ 0 0, .clear]).ctx.path =
        [.move ⟨10, 10⟩, .line ⟨20, 20⟩] ∧
      (run 1000 1000 [.start ⟨10, 10⟩, .continueAt ⟨20, 20⟩ 0 0, .clear]).isDrawing = true ∧
      newOps (run 1000 1000 [.start ⟨10, 10⟩, .continueAt ⟨20, 20⟩ 0 0, .clear])
          (draw (run 1000 1000 [.start ⟨10, 10⟩, .continueAt ⟨20, 20⟩ 0 0, .clear]) ⟨30, 30⟩
            0 0) =
        [.stroke [.move ⟨10, 10⟩, .line ⟨20, 20⟩, .line ⟨30, 30⟩] 5 ⟨0x25, 0x63, 0xeb⟩ 1 .butt
          .miter] := by
  refine ⟨rfl, rfl, ?_⟩
  simp [newOps, run, step, startDrawing, draw, clearCanvas, Ctx.beginPath, Ctx.moveTo,
    Ctx.lineTo, Ctx.setStrokeStyle, Ctx.setLineWidth, Ctx.stroke, Ctx.fillRect,
    Ctx.setFillStyle, mount, resizeCanvas, initialState, setCanvasHeight, setCanvasWidth,
    JsSize.toNumber, Ctx.initial]

/-- C10, amended: `clearCanvas` refills the surface with the background colour
and shows the instructions again; it leaves the current path and the
`isDrawing` flag as they were.  When no stroke is in progress at the clear, a
continue gesture delivered right after it changes nothing, so it strokes no
segment added before the clear. -/
theorem clearCanvas_keeps_path (s : App) :
    (clearCanvas s).ctx.path = s.ctx.path ∧
      (clearCanvas s).isDrawing = s.isDrawing ∧
      (clearCanvas s).showInstructions = true ∧
      (clearCanvas s).canvas.ops =
        s.canvas.ops ++ [.fillRect 0 0 (s.canvas.width : ℚ) (s.canvas.height : ℚ)
          s.canvasBackground s.ctx.globalAlpha] ∧
      (s.isDrawing = false → ∀ (p : Point) (r1 r2 : ℚ),
        draw (clearCanvas s) p r1 r2 = clearCanvas s ∧
          newOps (clearCanvas s) (draw (clearCanvas s) p r1 r2) = []) := by
  refine ⟨rfl, rfl, rfl, clearCanvas_ops s, ?_⟩
  intro h p r1 r2
  have hd : draw (clearCanvas s) p r1 r2 = clearCanvas s := draw_of_idle _ p r1 r2 h
  rw [hd]
  exact ⟨rfl, by simp [newOps]⟩

theorem clearCanvas_keeps_path_witness :
    (run 1000 1000 [.start ⟨10, 10⟩, .continueAt ⟨20, 20⟩ 0 0, .stop]).isDrawing = false ∧
      draw (clearCanvas (run 1000 1000 [.start ⟨10, 10⟩, .continueAt ⟨20, 20⟩ 0 0, .stop]))
          ⟨30, 30⟩ 0 0 =
        clearCanvas (run 1000 1000 [.start ⟨10, 10⟩, .continueAt ⟨20, 20⟩ 0 0, .stop]) :=
  ⟨rfl,
    ((clearCanvas_keeps_path
      (run 1000 1000 [.start ⟨10, 10⟩, .continueAt ⟨20, 20⟩ 0 0, .stop])).2.2.2.2 rfl ⟨30, 30⟩
      0 0).1⟩

end Postcard
